import Mathlib

/-!
Shallow embedding of the conversational HTTP service in `app.py`.

Python strings are `List Char`, Python JSON values are `PyVal`, Python
exceptions are `PyErr`.  The request handler (`main`), the state codec
(`init_state_graph` / `post_processing`) and the prompt assembly
(`pre_processing`) are translated from the source; the third-party
collaborators (the `MemorySaver` snapshot store, the compiled state graph's
`invoke`, the `trim_messages` utility and the message pretty-printer) are
modelled from the specification, as marked on each definition.
-/

namespace GroqChat

abbrev Str := List Char

inductive Role where
  | human
  | assistant
  | system
deriving DecidableEq, Repr

structure Msg where
  role : Role
  content : Str
deriving DecidableEq, Repr

inductive PyErr where
  | keyError (k : Str)
  | typeError
  | attributeError
  | valueError
  | indexError
  | remoteError
deriving DecidableEq, Repr

/-- A Python/JSON value as the service manipulates them: JSON scalars,
lists, string-keyed dicts, and langchain message objects (which can sit
inside a checkpoint's `channel_values`). -/
inductive PyVal where
  | none
  | bool (b : Bool)
  | int (n : Int)
  | str (s : Str)
  | list (xs : List PyVal)
  | dict (es : List (Str × PyVal))
  | msg (role : Role) (content : Str)

def msgVal (m : Msg) : PyVal := .msg m.role m.content

/-- Python truthiness, as used by `if history:` and `payload and ...`. -/
def PyVal.truthy : PyVal → Bool
  | .none => false
  | .bool b => b
  | .int n => n != 0
  | .str s => !s.isEmpty
  | .list xs => !xs.isEmpty
  | .dict es => !es.isEmpty
  | .msg _ _ => true

def humanInputKey : Str := "human_input".data
def historyKey : Str := "history".data
def configKey : Str := "config".data
def configurableKey : Str := "configurable".data
def threadIdKey : Str := "thread_id".data
def checkpointKey : Str := "checkpoint".data
def channelValuesKey : Str := "channel_values".data
def messagesKey : Str := "messages".data
def promptListKey : Str := "prompt_list".data
def metadataKey : Str := "metadata".data
def writesKey : Str := "writes".data
def newVersionKey : Str := "new_version".data
def responseKey : Str := "response".data
def errorKey : Str := "error".data
def stepKey : Str := "step".data
def modelKey : Str := "model".data

/-- Lookup in an insertion-ordered Python dict. -/
def lookupEntry : List (Str × PyVal) → Str → Option PyVal
  | [], _ => Option.none
  | (k', v) :: rest, k => if k' = k then some v else lookupEntry rest k

/-- `d[k] = v`: replace in place if the key exists, else append. -/
def setEntry : List (Str × PyVal) → Str → PyVal → List (Str × PyVal)
  | [], k, v => [(k, v)]
  | (k', v') :: rest, k, v =>
    if k' = k then (k', v) :: rest else (k', v') :: setEntry rest k v

/-- `del d[k]`: `Option.none` means the key was absent (Python `KeyError`). -/
def delEntry : List (Str × PyVal) → Str → Option (List (Str × PyVal))
  | [], _ => Option.none
  | (k', v') :: rest, k =>
    if k' = k then some rest
    else (delEntry rest k).map (fun r => (k', v') :: r)

/-- Python subscription `p[k]` with a string key: `KeyError` on a dict
missing the key, `TypeError` on every non-dict value. -/
def subscript : PyVal → Str → Except PyErr PyVal
  | .dict es, k =>
    match lookupEntry es k with
    | some v => .ok v
    | Option.none => .error (.keyError k)
  | _, _ => .error .typeError

def dictSet : PyVal → Str → PyVal → Except PyErr PyVal
  | .dict es, k, v => .ok (.dict (setEntry es k v))
  | _, _, _ => .error .typeError

def dictDel : PyVal → Str → Except PyErr PyVal
  | .dict es, k =>
    match delEntry es k with
    | some r => .ok (.dict r)
    | Option.none => .error (.keyError k)
  | _, _ => .error .typeError

def isSubstring (needle hay : Str) : Bool :=
  (List.range (hay.length + 1)).any (fun i => needle.isPrefixOf (hay.drop i))

/-- Python `k in p`: key membership for dicts, element membership for
lists, substring test for strings, `TypeError` otherwise. -/
def inOp (k : Str) : PyVal → Except PyErr Bool
  | .dict es => .ok (es.any (fun e => e.1 == k))
  | .list xs => .ok (xs.any (fun x => match x with | PyVal.str s => s == k | _ => false))
  | .str s => .ok (isSubstring k s)
  | _ => .error .typeError

/-- Python iteration (`enumerate`, comprehensions): lists yield elements,
strings yield one-character strings, dicts yield keys. -/
def pyIter : PyVal → Except PyErr (List PyVal)
  | .list xs => .ok xs
  | .str s => .ok (s.map (fun c => PyVal.str [c]))
  | .dict es => .ok (es.map (fun e => PyVal.str e.1))
  | _ => .error .typeError

/-- `HumanMessage(content=prompt)`: langchain validates the content type. -/
def mkHumanMessage : PyVal → Except PyErr Msg
  | .str s => .ok ⟨.human, s⟩
  | _ => .error .valueError

/-- `AIMessage(content=prompt)`. -/
def mkAIMessage : PyVal → Except PyErr Msg
  | .str s => .ok ⟨.assistant, s⟩
  | _ => .error .valueError

/-- `obj.content`: only message objects carry the attribute. -/
def contentOf : PyVal → Except PyErr Str
  | .msg _ c => .ok c
  | _ => .error .attributeError

def asMsg : PyVal → Except PyErr Msg
  | .msg r c => .ok ⟨r, c⟩
  | _ => .error .typeError

/-- A Python comprehension over an already-obtained iterator: map with
exception propagation. -/
def mapExcept (f : PyVal → Except PyErr α) : List PyVal → Except PyErr (List α)
  | [] => .ok []
  | x :: xs => do
    let y ← f x
    let ys ← mapExcept f xs
    .ok (y :: ys)

def mapOption (f : PyVal → Option α) : List PyVal → Option (List α)
  | [] => some []
  | x :: xs => do
    let y ← f x
    let ys ← mapOption f xs
    some (y :: ys)

/-- Equality of hashable Python values used as snapshot-store keys. -/
def keyEq : PyVal → PyVal → Bool
  | .none, .none => true
  | .bool a, .bool b => a == b
  | .int a, .int b => a == b
  | .str a, .str b => a == b
  | _, _ => false

def hashablePy : PyVal → Bool
  | .none => true
  | .bool _ => true
  | .int _ => true
  | .str _ => true
  | _ => false

abbrev StoredTuple := PyVal × PyVal × PyVal × PyVal

abbrev SnapStore := List (PyVal × StoredTuple)

def lookupAssoc : SnapStore → PyVal → Option StoredTuple
  | [], _ => Option.none
  | (k', v) :: rest, k => if keyEq k k' then some v else lookupAssoc rest k

def putAssoc : SnapStore → PyVal → StoredTuple → SnapStore
  | [], k, v => [(k, v)]
  | (k', v') :: rest, k, v =>
    if keyEq k k' then (k', v) :: rest else (k', v') :: putAssoc rest k v

/-- `graph_config = {"configurable": {"thread_id": "1"}}` (app.py line 19). -/
def graph_config : PyVal :=
  .dict [(configurableKey, .dict [(threadIdKey, .str "1".data)])]

def threadIdOf (cfg : PyVal) : Except PyErr PyVal := do
  let c ← subscript cfg configurableKey
  subscript c threadIdKey

/-- Modelled from the spec: `MemorySaver.put` — the underlying snapshot
store is keyed by the `config`'s thread id and receives the
(config, checkpoint, metadata, new_version) tuple (spec section 4.2).
Unhashable keys are rejected as in Python. -/
def storePutKeyed (store : SnapStore) (cfg cp md nv : PyVal) :
    Except PyErr SnapStore := do
  let tid ← threadIdOf cfg
  if hashablePy tid then .ok (putAssoc store tid (cfg, cp, md, nv))
  else .error .typeError

/-- Modelled from the spec: `checkpointer.get_tuple(config)` — reads back
the latest checkpoint tuple stored for `config`'s thread id, or `None`
when the slot is empty (spec section 4.2). -/
def storeGetKeyed (store : SnapStore) (cfg : PyVal) :
    Except PyErr (Option StoredTuple) := do
  let tid ← threadIdOf cfg
  .ok (lookupAssoc store tid)

/-- The comprehension of app.py line 203, with its running index:
`HumanMessage(content=p) if idx % 2 == 0 else AIMessage(content=p)`. -/
def buildFrom : Nat → List PyVal → Except PyErr (List Msg)
  | _, [] => .ok []
  | idx, p :: rest => do
    let m ← if idx % 2 = 0 then mkHumanMessage p else mkAIMessage p
    let ms ← buildFrom (idx + 1) rest
    .ok (m :: ms)

def buildMessageObjects (items : List PyVal) : Except PyErr (List Msg) :=
  buildFrom 0 items

/-- `init_state_graph` (app.py lines 173-213): builds the graph with a
fresh `MemorySaver`; when a truthy `history` is given, rebuilds the
message objects from `prompt_list` by index parity, re-inserts them into
the checkpoint's `channel_values`, and feeds the four fields into the
fresh store keyed by `history['config']`'s thread id.  The returned
`SnapStore` is the relevant state of the compiled handle. -/
def init_state_graph (history : Option PyVal) : Except PyErr SnapStore :=
  match history with
  | Option.none => .ok []
  | some h =>
    if h.truthy then do
      let plv ← subscript h promptListKey
      let items ← pyIter plv
      let message_objects ← buildMessageObjects items
      let cp ← subscript h checkpointKey
      let cv ← subscript cp channelValuesKey
      let cv' ← dictSet cv messagesKey (.list (message_objects.map msgVal))
      let cp' ← dictSet cp channelValuesKey cv'
      let cfg ← subscript h configKey
      let md ← subscript h metadataKey
      let nv ← subscript h newVersionKey
      storePutKeyed [] cfg cp' md nv
    else .ok []

def tokenCount (tc : Msg → Nat) (ms : List Msg) : Nat := (ms.map tc).sum

def startsOnHumanB : List Msg → Bool
  | [] => true
  | m :: _ => m.role == Role.human

/-- Modelled from the spec: the external `trim_messages` utility as
configured in `pre_processing` (app.py lines 148-155) — strategy "last"
(keep the most recent turns), no partial turns, and the kept window must
start on a human turn: the longest suffix of the input that fits the
token budget and does not begin with an assistant turn. -/
def trimmerInvoke (tc : Msg → Nat) (maxTokens : Nat) : List Msg → List Msg
  | [] => []
  | m :: rest =>
    if tokenCount tc (m :: rest) ≤ maxTokens ∧ startsOnHumanB (m :: rest) = true
    then m :: rest
    else trimmerInvoke tc maxTokens rest

def systemPromptText : Str :=
  "You are a friendly alien, full of wisdom and goodness. Answer all questions to the best of your ability.".data

/-- `pre_processing` (app.py lines 129-171): trims the history to the
500-token budget and prepends the fixed system instruction via the prompt
template.  `tc` is the remote model's opaque token counter. -/
def pre_processing (tc : Msg → Nat) (messages : List Msg) : List Msg :=
  Msg.mk .system systemPromptText :: trimmerInvoke tc 500 messages

/-- Modelled from the spec: the framework's pretty-printer title line —
an 80-column line of `=` padding around the message type's title. -/
def headerLine (title : Str) : Str :=
  let padded := ' ' :: (title ++ [' '])
  let sepLen := (80 - padded.length) / 2
  List.replicate sepLen '=' ++ padded ++ List.replicate (80 - sepLen - padded.length) '='

def titleOf : Role → Str
  | .human => "Human Message".data
  | .assistant => "Ai Message".data
  | .system => "System Message".data

/-- Modelled from the spec: `message.pretty_repr()` — the fixed
framework-added boilerplate (title line plus a blank line) followed by the
message text (spec section 6). -/
def pretty_repr (m : Msg) : Str :=
  headerLine (titleOf m.role) ++ '\n' :: '\n' :: m.content

/-- The slice `[82:]` of app.py line 125. -/
def truncate_response (s : Str) : Str := s.drop 82

/-- The checkpoint the graph writes after a run: its `channel_values`
hold the message objects. -/
def checkpointOf (ms : List Msg) : PyVal :=
  .dict [(channelValuesKey, .dict [(messagesKey, .list (ms.map msgVal))])]

/-- The run metadata the graph writes, containing the transient pending
`writes` entry. -/
def metadataOf (reply : Str) (step : Nat) : PyVal :=
  .dict [(writesKey, .dict [(modelKey, .dict [(messagesKey, .list [msgVal ⟨.assistant, reply⟩])])]),
         (stepKey, .int (Int.ofNat step))]

def newVersionOf : PyVal := .dict [(messagesKey, .int 1)]

/-- Modelled from the spec: one `invoke` of the compiled state graph
(app.py line 56; spec sections 2 and 4.3) — load the prior turns from the
snapshot store under `graph_config`, append the coerced human input, run
the single `model` node (`call_model`: build the prompt via
`pre_processing`, call the opaque remote completion `oracle`), append the
assistant reply, and persist the updated pipeline state back to the store
under `graph_config`'s thread id. -/
def graphInvoke (tc : Msg → Nat) (oracle : List Msg → Except PyErr Str)
    (store : SnapStore) (inputVal : PyVal) : Except PyErr (List Msg × SnapStore) := do
  let hm ← mkHumanMessage inputVal
  let stored ← storeGetKeyed store graph_config
  let prior ← match stored with
    | some t => do
      let cv ← subscript t.2.1 channelValuesKey
      let mv ← subscript cv messagesKey
      let xs ← pyIter mv
      mapExcept asMsg xs
    | Option.none => .ok []
  let stateMsgs := prior ++ [hm]
  let reply ← oracle (pre_processing tc stateMsgs)
  let finalMsgs := stateMsgs ++ [Msg.mk .assistant reply]
  let store' ← storePutKeyed store graph_config (checkpointOf finalMsgs)
      (metadataOf reply prior.length) newVersionOf
  .ok (finalMsgs, store')

/-- The history-building half of `post_processing` (app.py lines
105-122): read the raw tuple back for `graph_config` (`TypeError` when
the slot is empty, as `raw_memory[0]` then subscripts `None`), flatten
the checkpoint's messages to `prompt_list`, delete the message slot and
the `metadata['writes']` entry, and assemble the transportable history. -/
def snapshotHistory (store : SnapStore) (cfg : PyVal) : Except PyErr PyVal := do
  let rawOpt ← storeGetKeyed store cfg
  let raw ← match rawOpt with
    | some t => Except.ok t
    | Option.none => Except.error PyErr.typeError
  let cv ← subscript raw.2.1 channelValuesKey
  let mv ← subscript cv messagesKey
  let objs ← pyIter mv
  let prompt_list ← mapExcept contentOf objs
  let cv' ← dictDel cv messagesKey
  let checkpoint' ← dictSet raw.2.1 channelValuesKey cv'
  let metadata' ← dictDel raw.2.2.1 writesKey
  .ok (.dict [(configKey, raw.1),
              (checkpointKey, checkpoint'),
              (promptListKey, .list (prompt_list.map PyVal.str)),
              (metadataKey, metadata'),
              (newVersionKey, raw.2.2.2)])

/-- `post_processing` (app.py lines 84-127): the transportable history
plus the `response` — the last message of the run, pretty-printed and
truncated by 82 characters. -/
def post_processing (llmMessages : List Msg) (store : SnapStore) (cfg : PyVal) :
    Except PyErr PyVal := do
  let history ← snapshotHistory store cfg
  let last ← match llmMessages.getLast? with
    | some m => Except.ok m
    | Option.none => Except.error PyErr.indexError
  .ok (.dict [(responseKey, .str (truncate_response (pretty_repr last))),
              (historyKey, history)])

/-- One decode/encode cycle with no new turn added: `init_state_graph`
restoration followed by the `post_processing` history snapshot. -/
def decodeEncode (ts : PyVal) : Except PyErr PyVal := do
  let st ← init_state_graph (some ts)
  snapshotHistory st graph_config

inductive MainErr where
  | abortErr (code : Nat)
  | exc (e : PyErr)
deriving DecidableEq, Repr

structure HttpResponse where
  status : Nat
  body : PyVal

/-- The framework's error page for an aborted or crashed request: it
carries no `history` field. -/
def errorBody (code : Nat) : PyVal := .dict [(errorKey, .int (Int.ofNat code))]

/-- `main` (app.py lines 21-58): validate `payload and 'human_input' in
payload` (abort 400 otherwise), restore or initialize the state graph,
invoke it on the new input under `graph_config`, and post-process.  A
missing or unparseable JSON body arrives as `Option.none`.  On success
the final request-local store is returned alongside the body so that the
snapshot writes the request performed can be inspected. -/
def mainBody (tc : Msg → Nat) (oracle : List Msg → Except PyErr Str)
    (payload : Option PyVal) : Except MainErr (PyVal × SnapStore) := do
  let p ← (match payload with
    | Option.none => Except.error (MainErr.abortErr 400)
    | some v => Except.ok v)
  let cond ← (if p.truthy then Except.mapError MainErr.exc (inOp humanInputKey p)
              else Except.ok false)
  if cond then do
    let hasHist ← Except.mapError MainErr.exc (inOp historyKey p)
    let store ← Except.mapError MainErr.exc
      (if hasHist then (subscript p historyKey).bind (fun hv => init_state_graph (some hv))
       else init_state_graph Option.none)
    let inputVal ← Except.mapError MainErr.exc (subscript p humanInputKey)
    let res ← Except.mapError MainErr.exc (graphInvoke tc oracle store inputVal)
    let out ← Except.mapError MainErr.exc (post_processing res.1 res.2 graph_config)
    Except.ok (out, res.2)
  else Except.error (MainErr.abortErr 400)

/-- The HTTP layer around `main`: 200 on success, the aborted status on
`abort`, 500 on an uncaught Python exception. -/
def runRequest (tc : Msg → Nat) (oracle : List Msg → Except PyErr Str)
    (payload : Option PyVal) : HttpResponse :=
  match mainBody tc oracle payload with
  | .ok r => ⟨200, r.1⟩
  | .error (.abortErr c) => ⟨c, errorBody c⟩
  | .error (.exc _) => ⟨500, errorBody 500⟩

/-- A sequence of requests handled by the service as written: each call
runs `main`, which builds its own fresh `MemorySaver`. -/
def processRequests (tc : Msg → Nat) (oracle : List Msg → Except PyErr Str) :
    List (Option PyVal) → List HttpResponse
  | [] => []
  | p :: rest => runRequest tc oracle p :: processRequests tc oracle rest

/-- SharedSlotModel, stated from the claim's words (spec sections 3-5): a
variant of `init_state_graph` in which the snapshot store is a single
process-wide object handed in from outside rather than a fresh
`MemorySaver`, so that slot contents persist between calls.  Used only to
compare the claimed behaviour with the per-request store the code builds. -/
def initStateGraphShared (store0 : SnapStore) (history : Option PyVal) :
    Except PyErr SnapStore :=
  match history with
  | Option.none => .ok store0
  | some h =>
    if h.truthy then do
      let plv ← subscript h promptListKey
      let items ← pyIter plv
      let message_objects ← buildMessageObjects items
      let cp ← subscript h checkpointKey
      let cv ← subscript cp channelValuesKey
      let cv' ← dictSet cv messagesKey (.list (message_objects.map msgVal))
      let cp' ← dictSet cp channelValuesKey cv'
      let cfg ← subscript h configKey
      let md ← subscript h metadataKey
      let nv ← subscript h newVersionKey
      storePutKeyed store0 cfg cp' md nv
    else .ok store0

/-- SharedSlotModel request handler: `mainBody` over the shared store. -/
def mainBodyShared (tc : Msg → Nat) (oracle : List Msg → Except PyErr Str)
    (store0 : SnapStore) (payload : Option PyVal) :
    Except MainErr (PyVal × SnapStore) := do
  let p ← (match payload with
    | Option.none => Except.error (MainErr.abortErr 400)
    | some v => Except.ok v)
  let cond ← (if p.truthy then Except.mapError MainErr.exc (inOp humanInputKey p)
              else Except.ok false)
  if cond then do
    let hasHist ← Except.mapError MainErr.exc (inOp historyKey p)
    let store ← Except.mapError MainErr.exc
      (if hasHist then (subscript p historyKey).bind (fun hv => initStateGraphShared store0 (some hv))
       else initStateGraphShared store0 Option.none)
    let inputVal ← Except.mapError MainErr.exc (subscript p humanInputKey)
    let res ← Except.mapError MainErr.exc (graphInvoke tc oracle store inputVal)
    let out ← Except.mapError MainErr.exc (post_processing res.1 res.2 graph_config)
    Except.ok (out, res.2)
  else Except.error (MainErr.abortErr 400)

/-- SharedSlotModel process: the store produced by each successful call is
handed to the next call. -/
def processShared (tc : Msg → Nat) (oracle : List Msg → Except PyErr Str) :
    SnapStore → List (Option PyVal) → List HttpResponse
  | _, [] => []
  | store0, p :: rest =>
    match mainBodyShared tc oracle store0 p with
    | .ok r => HttpResponse.mk 200 r.1 :: processShared tc oracle r.2 rest
    | .error (.abortErr c) => HttpResponse.mk c (errorBody c) :: processShared tc oracle store0 rest
    | .error (.exc _) => HttpResponse.mk 500 (errorBody 500) :: processShared tc oracle store0 rest

/-- Extract `body["history"]["prompt_list"]` as plain strings. -/
def historyPromptStrs (body : PyVal) : Option (List Str) :=
  match subscript body historyKey with
  | .ok h =>
    match subscript h promptListKey with
    | .ok (.list xs) =>
      mapOption (fun x => match x with | PyVal.str s => some s | _ => Option.none) xs
    | _ => Option.none
  | _ => Option.none

def respPromptStrs (r : HttpResponse) : Option (List Str) :=
  historyPromptStrs r.body

/-- The message objects sitting in a store's slot `"1"`. -/
def slotMessages (st : SnapStore) : Option (List Msg) :=
  match lookupAssoc st (PyVal.str "1".data) with
  | some t =>
    match subscript t.2.1 channelValuesKey with
    | .ok cv =>
      match subscript cv messagesKey with
      | .ok (.list xs) => (mapExcept asMsg xs).toOption
      | _ => Option.none
    | _ => Option.none
  | Option.none => Option.none

/-- A token counter charging one token per message (the counter is opaque
to the service; any function works in the general theorems). -/
def tc0 : Msg → Nat := fun _ => 1

/-- A remote model that always answers "yo". -/
def oracle0 : List Msg → Except PyErr Str := fun _ => .ok "yo".data

def payloadHi : PyVal := .dict [(humanInputKey, .str "hi".data)]

/-- Closed form of the comprehension's output on a list of strings. -/
def mkParity : Nat → List Str → List Msg
  | _, [] => []
  | idx, s :: rest =>
    Msg.mk (if idx % 2 = 0 then .human else .assistant) s :: mkParity (idx + 1) rest

/-- The alternation invariant of spec section 3: the turn at index `i` is
a human turn exactly when `i` is even. -/
def ParityAlt (ms : List Msg) : Prop :=
  ∀ i (h : i < ms.length), (ms.get ⟨i, h⟩).role = Role.human ↔ i % 2 = 0

/-- The transportable history `post_processing` assembles from a
checkpoint the graph run has just written for the turn list `ms`. -/
def transportOf (ms : List Msg) (step : Nat) : PyVal :=
  .dict [(configKey, graph_config),
         (checkpointKey, .dict [(channelValuesKey, .dict [])]),
         (promptListKey, .list ((ms.map Msg.content).map PyVal.str)),
         (metadataKey, .dict [(stepKey, .int (Int.ofNat step))]),
         (newVersionKey, newVersionOf)]

/-- The shape of every transportable state the service's own encode
produces: `config` is the constant `graph_config`, the checkpoint's
`channel_values` no longer contain a `messages` entry, and `metadata` no
longer contains a `writes` entry (both were deleted by
`post_processing`). -/
def serviceState (cvEs : List (Str × PyVal)) (strs : List Str)
    (mdEs : List (Str × PyVal)) (nv : PyVal) : PyVal :=
  .dict [(configKey, graph_config),
         (checkpointKey, .dict [(channelValuesKey, .dict cvEs)]),
         (promptListKey, .list (strs.map PyVal.str)),
         (metadataKey, .dict mdEs),
         (newVersionKey, nv)]

/-- A client-supplied history of the service-produced shape whose
`config` names the thread id `tid`. -/
def clientHistory (tid : PyVal) (strs : List Str) : PyVal :=
  .dict [(configKey, .dict [(configurableKey, .dict [(threadIdKey, tid)])]),
         (checkpointKey, .dict [(channelValuesKey, .dict [])]),
         (promptListKey, .list (strs.map PyVal.str)),
         (metadataKey, .dict [(stepKey, .int 0)]),
         (newVersionKey, newVersionOf)]

def payloadWith (inp : Str) (hv : PyVal) : PyVal :=
  .dict [(humanInputKey, .str inp), (historyKey, hv)]

def payloadBare (inp : Str) : PyVal :=
  .dict [(humanInputKey, .str inp)]

/-- A request whose history has an odd, one-element `prompt_list`. -/
def payloadOdd : PyVal :=
  payloadWith "b".data (serviceState [] ["a".data] [(stepKey, .int 0)] newVersionOf)

/-- A request with `human_input` but a structurally invalid history. -/
def payloadBadHist : PyVal :=
  .dict [(humanInputKey, .str "hi".data), (historyKey, .dict [("x".data, .int 1)])]

/-- A request whose history is a number. -/
def payloadNumHist : PyVal :=
  .dict [(humanInputKey, .str "hi".data), (historyKey, .int 7)]

/-- A request whose history's `prompt_list` is a plain string. -/
def payloadStrPromptList : PyVal :=
  payloadWith "hi".data
    (.dict [(configKey, graph_config),
            (checkpointKey, .dict [(channelValuesKey, .dict [])]),
            (promptListKey, .str "ab".data),
            (metadataKey, .dict [(stepKey, .int 0)]),
            (newVersionKey, newVersionOf)])

/-- A request body that carries a history but no `human_input`. -/
def payloadNoInput : PyVal := .dict [(historyKey, .dict [])]

/-- The spec's failure classes (spec section 7). -/
inductive SpecFailure where
  | badRequest
  | malformedHistory
  | trimmingInfeasible
  | remoteUnavailable
  | snapshotUnavailable

/-- The spec's error taxonomy (section 7), stated from the spec's words
for comparison with the statuses the code actually produces. -/
def specStatusOf : SpecFailure → Nat
  | .badRequest => 400
  | .malformedHistory => 400
  | .trimmingInfeasible => 500
  | .remoteUnavailable => 502
  | .snapshotUnavailable => 500

/-- A remote model that is unavailable. -/
def oracleDown : List Msg → Except PyErr Str := fun _ => .error .remoteError

def reqA : Option PyVal := some (.dict [(humanInputKey, .str "a".data)])

def reqB : Option PyVal := some (.dict [(humanInputKey, .str "b".data)])

/-- The transportable state the service returns for the request
`{"human_input": "hi"}` against the constant-"yo" model. -/
def ts0 : PyVal :=
  match subscript (runRequest tc0 oracle0 (some payloadHi)).body historyKey with
  | .ok v => v
  | .error _ => PyVal.none

/-- The successful handler output for `{"human_input": "hi"}`. -/
def mainOut0 : PyVal × SnapStore :=
  match mainBody tc0 oracle0 (some payloadHi) with
  | .ok r => r
  | .error _ => (PyVal.none, [])

/-- A three-turn history and a token counter under which it overflows
the 500-token budget. -/
def msW : List Msg :=
  [Msg.mk .human "a".data, Msg.mk .assistant "b".data, Msg.mk .human "c".data]

def tcW : Msg → Nat := fun _ => 300

/-! ## Basic lemmas about the embedding's plumbing -/

theorem exceptBind_eq_ok {α β : Type} {e : Type} (x : Except e α) (f : α → Except e β) (b : β) :
    (x >>= f) = .ok b ↔ ∃ a, x = .ok a ∧ f a = .ok b := by
  cases x <;> simp [Bind.bind, Except.bind]

theorem mapErr_eq_ok {α : Type} {e e' : Type} (g : e → e') (x : Except e α) (b : α) :
    Except.mapError g x = .ok b ↔ x = .ok b := by
  cases x <;> simp [Except.mapError]

theorem keyEq_str_self (s : Str) : keyEq (.str s) (.str s) = true := by
  simp [keyEq]

theorem lookup_putAssoc (st : SnapStore) (s : Str) (v : StoredTuple) :
    lookupAssoc (putAssoc st (.str s) v) (.str s) = some v := by
  induction st with
  | nil => simp [putAssoc, lookupAssoc, keyEq_str_self]
  | cons e rest ih =>
    obtain ⟨k', v'⟩ := e
    by_cases h : keyEq (.str s) k' = true
    · simp [putAssoc, lookupAssoc, h]
    · simp only [putAssoc, lookupAssoc, h]
      simp [h, ih]

theorem setEntry_notMem (es : List (Str × PyVal)) (k : Str) (v : PyVal)
    (h : lookupEntry es k = Option.none) : setEntry es k v = es ++ [(k, v)] := by
  induction es with
  | nil => simp [setEntry]
  | cons e rest ih =>
    obtain ⟨k', v'⟩ := e
    by_cases hk : k' = k
    · simp [lookupEntry, hk] at h
    · simp only [lookupEntry, hk, if_false] at h
      simp [setEntry, hk, ih h]

theorem lookupEntry_append_self (es : List (Str × PyVal)) (k : Str) (v : PyVal)
    (h : lookupEntry es k = Option.none) :
    lookupEntry (es ++ [(k, v)]) k = some v := by
  induction es with
  | nil => simp [lookupEntry]
  | cons e rest ih =>
    obtain ⟨k', v'⟩ := e
    by_cases hk : k' = k
    · simp [lookupEntry, hk] at h
    · simp only [lookupEntry, hk, if_false] at h ⊢
      exact ih h

theorem delEntry_append_self (es : List (Str × PyVal)) (k : Str) (v : PyVal)
    (h : lookupEntry es k = Option.none) :
    delEntry (es ++ [(k, v)]) k = some es := by
  induction es with
  | nil => simp [delEntry]
  | cons e rest ih =>
    obtain ⟨k', v'⟩ := e
    by_cases hk : k' = k
    · simp [lookupEntry, hk] at h
    · simp only [lookupEntry, hk, if_false] at h
      simp [delEntry, hk, ih h]

theorem delEntry_notMem (es : List (Str × PyVal)) (k : Str)
    (h : lookupEntry es k = Option.none) : delEntry es k = Option.none := by
  induction es with
  | nil => simp [delEntry]
  | cons e rest ih =>
    obtain ⟨k', v'⟩ := e
    by_cases hk : k' = k
    · simp [lookupEntry, hk] at h
    · simp only [lookupEntry, hk, if_false] at h
      simp [delEntry, hk, ih h]

theorem mapExcept_contentOf (ms : List Msg) :
    mapExcept contentOf (ms.map msgVal) = .ok (ms.map Msg.content) := by
  induction ms with
  | nil => simp [mapExcept]
  | cons m rest ih => simp [mapExcept, msgVal, contentOf, ih, Bind.bind, Except.bind]

theorem mapExcept_asMsg (ms : List Msg) :
    mapExcept asMsg (ms.map msgVal) = .ok ms := by
  induction ms with
  | nil => simp [mapExcept]
  | cons m rest ih => simp [mapExcept, msgVal, asMsg, ih, Bind.bind, Except.bind]

theorem mapOption_str (strs : List Str) :
    mapOption (fun x => match x with | PyVal.str s => some s | _ => Option.none)
      (strs.map PyVal.str) = some strs := by
  induction strs with
  | nil => simp [mapOption]
  | cons s rest ih => simp [mapOption, ih, Bind.bind, Option.bind]

/-! ## The parity reconstruction of app.py line 203 -/

theorem buildFrom_strs (strs : List Str) : ∀ idx,
    buildFrom idx (strs.map PyVal.str) = .ok (mkParity idx strs) := by
  induction strs with
  | nil => intro idx; simp [buildFrom, mkParity]
  | cons s rest ih =>
    intro idx
    by_cases h : idx % 2 = 0 <;>
      simp [buildFrom, mkParity, h, mkHumanMessage, mkAIMessage, ih (idx + 1),
        Bind.bind, Except.bind]

theorem mkParity_content (strs : List Str) : ∀ idx,
    (mkParity idx strs).map Msg.content = strs := by
  induction strs with
  | nil => intro idx; simp [mkParity]
  | cons s rest ih => intro idx; simp [mkParity, ih (idx + 1)]

theorem mkParity_get? (strs : List Str) : ∀ idx i,
    (mkParity idx strs).get? i =
      (strs.get? i).map
        (fun s => Msg.mk (if (idx + i) % 2 = 0 then Role.human else Role.assistant) s) := by
  induction strs with
  | nil => intro idx i; simp [mkParity]
  | cons s rest ih =>
    intro idx i
    cases i with
    | zero => simp [mkParity]
    | succ j =>
      simp only [mkParity, List.get?]
      rw [ih (idx + 1) j]
      have : idx + 1 + j = idx + (j + 1) := by omega
      rw [this]

theorem mkParity_length (strs : List Str) : ∀ idx,
    (mkParity idx strs).length = strs.length := by
  induction strs with
  | nil => intro idx; simp [mkParity]
  | cons s rest ih => intro idx; simp [mkParity, ih (idx + 1)]

/-! ## Trimming lemmas -/

theorem trimmer_isSuffix (tc : Msg → Nat) (b : Nat) (ms : List Msg) :
    trimmerInvoke tc b ms <:+ ms := by
  induction ms with
  | nil => simp [trimmerInvoke]
  | cons m rest ih =>
    by_cases h : tokenCount tc (m :: rest) ≤ b ∧ startsOnHumanB (m :: rest) = true
    · simp [trimmerInvoke, h]
    · simp only [trimmerInvoke, if_neg h]
      exact ih.trans (List.suffix_cons m rest)

theorem trimmer_budget (tc : Msg → Nat) (b : Nat) (ms : List Msg) :
    tokenCount tc (trimmerInvoke tc b ms) ≤ b := by
  induction ms with
  | nil => simp [trimmerInvoke, tokenCount]
  | cons m rest ih =>
    by_cases h : tokenCount tc (m :: rest) ≤ b ∧ startsOnHumanB (m :: rest) = true
    · simp [trimmerInvoke, h]
    · simp only [trimmerInvoke, if_neg h]
      exact ih

theorem trimmer_startsHuman (tc : Msg → Nat) (b : Nat) (ms : List Msg) :
    startsOnHumanB (trimmerInvoke tc b ms) = true := by
  induction ms with
  | nil => simp [trimmerInvoke, startsOnHumanB]
  | cons m rest ih =>
    by_cases h : tokenCount tc (m :: rest) ≤ b ∧ startsOnHumanB (m :: rest) = true
    · simp only [trimmerInvoke, if_pos h]
      exact h.2
    · simp only [trimmerInvoke, if_neg h]
      exact ih

theorem trimmer_proper (tc : Msg → Nat) (b : Nat) (ms : List Msg)
    (h : b < tokenCount tc ms) :
    (trimmerInvoke tc b ms).length < ms.length := by
  cases ms with
  | nil => simp [tokenCount] at h
  | cons m rest =>
    have hcond : ¬ (tokenCount tc (m :: rest) ≤ b ∧ startsOnHumanB (m :: rest) = true) := by
      intro hc; omega
    simp only [trimmerInvoke, if_neg hcond]
    have := (trimmer_isSuffix tc b rest).length_le
    simp only [List.length_cons]
    omega

/-! ## Pretty-print truncation lemmas -/

theorem pretty_repr_assistant (c : Str) :
    pretty_repr (Msg.mk .assistant c) =
      (headerLine (titleOf .assistant) ++ ['\n', '\n']) ++ c := by
  simp [pretty_repr]

theorem aiBoilerplate_length : (headerLine (titleOf .assistant) ++ ['\n', '\n']).length = 82 := by
  decide

/-! ## The tuple the graph run stores and its snapshot -/

theorem threadIdOf_graph_config : threadIdOf graph_config = .ok (.str "1".data) := rfl

theorem storeGetKeyed_gc (store : SnapStore) :
    storeGetKeyed store graph_config = .ok (lookupAssoc store (.str "1".data)) := rfl

theorem storePutKeyed_gc (store : SnapStore) (cp md nv : PyVal) :
    storePutKeyed store graph_config cp md nv =
      .ok (putAssoc store (.str "1".data) (graph_config, cp, md, nv)) := rfl

theorem snapshot_after_put (st : SnapStore) (ms : List Msg) (r : Str) (n : Nat) :
    snapshotHistory
      (putAssoc st (PyVal.str "1".data)
        (graph_config, checkpointOf ms, metadataOf r n, newVersionOf))
      graph_config = .ok (transportOf ms n) := by
  simp +decide [snapshotHistory, storeGetKeyed_gc, lookup_putAssoc, Bind.bind, Except.bind,
    checkpointOf, metadataOf, subscript, lookupEntry, pyIter, mapExcept_contentOf,
    dictDel, delEntry, dictSet, setEntry, transportOf]

/-! ## Characterizing one graph invocation -/

theorem invoke_no_slot (tc : Msg → Nat) (oracle : List Msg → Except PyErr Str)
    (store : SnapStore) (inp : Str)
    (hstore : lookupAssoc store (PyVal.str "1".data) = Option.none) :
    graphInvoke tc oracle store (.str inp) =
      (oracle (pre_processing tc [Msg.mk .human inp])).bind (fun r =>
        .ok ([Msg.mk .human inp, Msg.mk .assistant r],
          putAssoc store (PyVal.str "1".data)
            (graph_config, checkpointOf [Msg.mk .human inp, Msg.mk .assistant r],
             metadataOf r 0, newVersionOf))) := by
  cases horacle : oracle (pre_processing tc [Msg.mk .human inp]) with
  | error e =>
    simp [graphInvoke, mkHumanMessage, storeGetKeyed_gc, hstore, Bind.bind, Except.bind,
      horacle]
  | ok r =>
    simp [graphInvoke, mkHumanMessage, storeGetKeyed_gc, hstore, Bind.bind, Except.bind,
      horacle, storePutKeyed_gc]

theorem invoke_with_slot (tc : Msg → Nat) (oracle : List Msg → Except PyErr Str)
    (store : SnapStore) (t : StoredTuple) (cv : PyVal) (ms : List Msg) (inp : Str)
    (h1 : lookupAssoc store (PyVal.str "1".data) = some t)
    (h2 : subscript t.2.1 channelValuesKey = .ok cv)
    (h3 : subscript cv messagesKey = .ok (.list (ms.map msgVal))) :
    graphInvoke tc oracle store (.str inp) =
      (oracle (pre_processing tc (ms ++ [Msg.mk .human inp]))).bind (fun r =>
        .ok (ms ++ [Msg.mk .human inp, Msg.mk .assistant r],
          putAssoc store (PyVal.str "1".data)
            (graph_config, checkpointOf (ms ++ [Msg.mk .human inp, Msg.mk .assistant r]),
             metadataOf r ms.length, newVersionOf))) := by
  cases horacle : oracle (pre_processing tc (ms ++ [Msg.mk .human inp])) with
  | error e =>
    simp [graphInvoke, mkHumanMessage, storeGetKeyed_gc, h1, h2, h3, pyIter,
      mapExcept_asMsg, Bind.bind, Except.bind, horacle]
  | ok r =>
    simp [graphInvoke, mkHumanMessage, storeGetKeyed_gc, h1, h2, h3, pyIter,
      mapExcept_asMsg, Bind.bind, Except.bind, horacle, storePutKeyed_gc]

theorem invoke_ok_shape (tc : Msg → Nat) (oracle : List Msg → Except PyErr Str)
    (store : SnapStore) (iv : PyVal) (res : List Msg × SnapStore)
    (h : graphInvoke tc oracle store iv = .ok res) :
    ∃ prior inp rep,
      res.1 = prior ++ [Msg.mk .human inp, Msg.mk .assistant rep] ∧
      res.2 = putAssoc store (PyVal.str "1".data)
        (graph_config, checkpointOf res.1, metadataOf rep prior.length, newVersionOf) := by
  have hiv : ∃ s, iv = PyVal.str s := by
    cases iv
    case str s => exact ⟨s, rfl⟩
    all_goals simp [graphInvoke, mkHumanMessage, Bind.bind, Except.bind] at h
  obtain ⟨s, rfl⟩ := hiv
  simp only [graphInvoke] at h
  rw [exceptBind_eq_ok] at h
  obtain ⟨hm, hhm, h⟩ := h
  simp only [mkHumanMessage, Except.ok.injEq] at hhm
  subst hhm
  try dsimp only at h
  rw [storeGetKeyed_gc, exceptBind_eq_ok] at h
  obtain ⟨stored, hst, h⟩ := h
  clear hst
  cases stored with
  | none =>
    try dsimp only at h
    rw [exceptBind_eq_ok] at h
    obtain ⟨prior, hprior, h⟩ := h
    rw [Except.ok.injEq] at hprior
    subst hprior
    try dsimp only at h
    rw [exceptBind_eq_ok] at h
    obtain ⟨rep, hrep, h⟩ := h
    try dsimp only at h
    rw [storePutKeyed_gc, exceptBind_eq_ok] at h
    obtain ⟨store', hstore', h⟩ := h
    rw [Except.ok.injEq] at hstore'
    subst hstore'
    try dsimp only at h
    rw [Except.ok.injEq] at h
    subst h
    exact ⟨[], s, rep, by simp, by simp⟩
  | some t =>
    try dsimp only at h
    rw [exceptBind_eq_ok] at h
    obtain ⟨cv, hcv, h⟩ := h
    try dsimp only at h
    rw [exceptBind_eq_ok] at h
    obtain ⟨mv, hmv, h⟩ := h
    try dsimp only at h
    rw [exceptBind_eq_ok] at h
    obtain ⟨xs, hxs, h⟩ := h
    try dsimp only at h
    rw [exceptBind_eq_ok] at h
    obtain ⟨prior, hprior, h⟩ := h
    try dsimp only at h
    rw [exceptBind_eq_ok] at h
    obtain ⟨rep, hrep, h⟩ := h
    try dsimp only at h
    rw [storePutKeyed_gc, exceptBind_eq_ok] at h
    obtain ⟨store', hstore', h⟩ := h
    rw [Except.ok.injEq] at hstore'
    subst hstore'
    try dsimp only at h
    rw [Except.ok.injEq] at h
    subst h
    exact ⟨prior, s, rep, by simp, by simp⟩

/-! ## Characterizing the request handler's success shape -/

theorem mainBody_ok_shape (tc : Msg → Nat) (oracle : List Msg → Except PyErr Str)
    (payload : Option PyVal) (r : PyVal × SnapStore)
    (h : mainBody tc oracle payload = .ok r) :
    ∃ store prior inp rep,
      r.2 = putAssoc store (PyVal.str "1".data)
        (graph_config,
         checkpointOf (prior ++ [Msg.mk .human inp, Msg.mk .assistant rep]),
         metadataOf rep prior.length, newVersionOf) ∧
      r.1 = .dict [(responseKey,
                    .str (truncate_response (pretty_repr (Msg.mk .assistant rep)))),
                   (historyKey,
                    transportOf (prior ++ [Msg.mk .human inp, Msg.mk .assistant rep])
                      prior.length)] := by
  cases payload with
  | none => simp [mainBody, Bind.bind, Except.bind] at h
  | some p =>
    simp only [mainBody] at h
    rw [exceptBind_eq_ok] at h
    obtain ⟨p', hp, h⟩ := h
    rw [Except.ok.injEq] at hp
    subst hp
    try dsimp only at h
    rw [exceptBind_eq_ok] at h
    obtain ⟨cond, hcond, h⟩ := h
    try dsimp only at h
    cases cond with
    | false => simp at h
    | true =>
      simp only [if_true] at h
      rw [exceptBind_eq_ok] at h
      obtain ⟨hasHist, hhh, h⟩ := h
      try dsimp only at h
      rw [exceptBind_eq_ok] at h
      obtain ⟨store, hstore, h⟩ := h
      try dsimp only at h
      rw [exceptBind_eq_ok] at h
      obtain ⟨iv, hivv, h⟩ := h
      try dsimp only at h
      rw [exceptBind_eq_ok] at h
      obtain ⟨res, hres, h⟩ := h
      try dsimp only at h
      rw [exceptBind_eq_ok] at h
      obtain ⟨out, hout, h⟩ := h
      try dsimp only at h
      rw [Except.ok.injEq] at h
      subst h
      rw [mapErr_eq_ok] at hres hout
      obtain ⟨prior, inp, rep, hres1, hres2⟩ := invoke_ok_shape tc oracle store iv res hres
      refine ⟨store, prior, inp, rep, ?_, ?_⟩
      · rw [← hres1]; exact hres2
      · -- compute post_processing on the known store
        rw [hres1] at hres2
        rw [hres2, hres1] at hout
        simp only [post_processing] at hout
        rw [exceptBind_eq_ok] at hout
        obtain ⟨hist, hhist, hout⟩ := hout
        rw [snapshot_after_put, Except.ok.injEq] at hhist
        subst hhist
        try dsimp only at hout
        have hconc : prior ++ [Msg.mk .human inp, Msg.mk .assistant rep] =
            (prior ++ [Msg.mk .human inp]) ++ [Msg.mk .assistant rep] := by simp
        rw [hconc, List.getLast?_concat] at hout
        simp only [Bind.bind, Except.bind, Except.ok.injEq] at hout
        subst hout
        simp

/-! ## Claim theorems -/

/-- C5: for every turn history whose total token count exceeds the
500-token budget, the trimming pass of `pre_processing` keeps only a
proper suffix of the history (whole turns only), the kept window fits
within the budget and does not start on an assistant turn (so an
assistant-first window is never produced), and the assembled prompt
keeps the system instruction in front. -/
theorem trim_budget_window (tc : Msg → Nat) (ms : List Msg)
    (h : 500 < tokenCount tc ms) :
    trimmerInvoke tc 500 ms <:+ ms ∧
    tokenCount tc (trimmerInvoke tc 500 ms) ≤ 500 ∧
    startsOnHumanB (trimmerInvoke tc 500 ms) = true ∧
    (trimmerInvoke tc 500 ms).length < ms.length ∧
    pre_processing tc ms = Msg.mk .system systemPromptText :: trimmerInvoke tc 500 ms :=
  ⟨trimmer_isSuffix tc 500 ms, trimmer_budget tc 500 ms, trimmer_startsHuman tc 500 ms,
   trimmer_proper tc 500 ms h, rfl⟩

/-- C5 witness: a concrete three-turn history of 900 tokens. -/
theorem trim_budget_window_witness :
    500 < tokenCount tcW msW ∧
    (trimmerInvoke tcW 500 msW <:+ msW ∧
     tokenCount tcW (trimmerInvoke tcW 500 msW) ≤ 500 ∧
     startsOnHumanB (trimmerInvoke tcW 500 msW) = true ∧
     (trimmerInvoke tcW 500 msW).length < msW.length ∧
     pre_processing tcW msW = Msg.mk .system systemPromptText :: trimmerInvoke tcW 500 msW) :=
  ⟨by decide, trim_budget_window tcW msW (by decide)⟩

/-- C6: the returned `response` equals the assistant's reply text with
exactly the fixed framework-added pretty-print boilerplate stripped and
nothing else: dropping 82 characters from `pretty_repr` of an assistant
message recovers the reply text, whatever it is. -/
theorem response_strips_exact_boilerplate (c : Str) :
    truncate_response (pretty_repr (Msg.mk .assistant c)) = c := by
  rw [pretty_repr_assistant, truncate_response, ← aiBoilerplate_length, List.drop_left]

/-- C10: computing the `response` never fails: `truncate_response` is a
total function that drops the first 82 characters, returns the empty
string whenever the pretty-printed form has at most 82 characters, and
otherwise returns exactly the remaining characters. -/
theorem truncate_total (s : Str) :
    (truncate_response s = [] ↔ s.length ≤ 82) ∧
    (truncate_response s).length = s.length - 82 :=
  ⟨List.drop_eq_nil_iff, List.length_drop 82 s⟩

/-- C3 counterexample: the JSON body `5` lacks the key `human_input`,
yet the request fails with HTTP 500 (an uncaught `TypeError` from
`'human_input' in payload`), not with HTTP 400 as claimed. -/
theorem missing_input_rejected_cex :
    runRequest tc0 oracle0 (some (PyVal.int 5)) = ⟨500, errorBody 500⟩ := rfl

/-- C3 amended: for every request whose JSON body is absent, falsy, or a
container (dict, list, or string) in which the key `human_input` does
not occur, the handler aborts with HTTP 400 before building any state
graph or store, so no snapshot is written and no `history` is returned;
a truthy non-container body (such as a number) instead raises an
uncaught `TypeError`, surfacing as HTTP 500. -/
theorem missing_input_rejected (tc : Msg → Nat) (oracle : List Msg → Except PyErr Str)
    (payload : Option PyVal)
    (h : payload = Option.none ∨
         ∃ p, payload = some p ∧ (p.truthy = false ∨ inOp humanInputKey p = .ok false)) :
    mainBody tc oracle payload = .error (.abortErr 400) ∧
    runRequest tc oracle payload = ⟨400, errorBody 400⟩ := by
  have hmb : mainBody tc oracle payload = .error (.abortErr 400) := by
    rcases h with rfl | ⟨p, rfl, hp⟩
    · rfl
    · rcases hp with hp | hp
      · simp [mainBody, hp, Bind.bind, Except.bind]
      · cases htr : p.truthy with
        | false => simp [mainBody, htr, Bind.bind, Except.bind]
        | true => simp [mainBody, htr, hp, Bind.bind, Except.bind, Except.mapError]
  exact ⟨hmb, by simp [runRequest, hmb]⟩

/-- C3 witness: the spec's own test vector, a body holding only a
`history` field. -/
theorem missing_input_rejected_witness :
    (some payloadNoInput = Option.none ∨
     ∃ p, some payloadNoInput = some p ∧
       (p.truthy = false ∨ inOp humanInputKey p = .ok false)) ∧
    (mainBody tc0 oracle0 (some payloadNoInput) = .error (.abortErr 400) ∧
     runRequest tc0 oracle0 (some payloadNoInput) = ⟨400, errorBody 400⟩) :=
  ⟨Or.inr ⟨payloadNoInput, rfl, Or.inr rfl⟩,
   missing_input_rejected tc0 oracle0 (some payloadNoInput)
     (Or.inr ⟨payloadNoInput, rfl, Or.inr rfl⟩)⟩

/-- C4 counterexample: the structurally invalid history `{"x": 1}` does
not produce a `MalformedHistory` error mapped to HTTP 400: the uncaught
`KeyError` surfaces as HTTP 500; and the equally invalid history whose
`prompt_list` is the plain string "ab" is silently accepted with HTTP
200 (Python iterates the characters), so no structural validation of
either kind exists. -/
theorem malformed_history_cex :
    runRequest tc0 oracle0 (some payloadBadHist) = ⟨500, errorBody 500⟩ ∧
    (runRequest tc0 oracle0 (some payloadStrPromptList)).status = 200 := ⟨rfl, rfl⟩

/-- C4 amended: whenever restoration of a client-supplied history fails,
the error is an uncaught Python exception that surfaces as HTTP 500 (not
400); no `MalformedHistory` validation exists. -/
theorem malformed_history_500 (tc : Msg → Nat) (oracle : List Msg → Except PyErr Str)
    (inp : Str) (hv : PyVal) (e : PyErr)
    (hfail : init_state_graph (some hv) = .error e) :
    runRequest tc oracle (some (payloadWith inp hv)) = ⟨500, errorBody 500⟩ := by
  have hmb : mainBody tc oracle (some (payloadWith inp hv)) = .error (.exc e) := by
    simp +decide [mainBody, payloadWith, PyVal.truthy, inOp, subscript, lookupEntry, hfail,
      Bind.bind, Except.bind, Except.mapError]
  simp [runRequest, hmb]

/-- C4 witness: a history missing `prompt_list` fails restoration with a
`KeyError` and the request returns HTTP 500. -/
theorem malformed_history_500_witness :
    init_state_graph (some (PyVal.dict [("x".data, PyVal.int 1)])) =
      .error (.keyError promptListKey) ∧
    runRequest tc0 oracle0
      (some (payloadWith "hi".data (PyVal.dict [("x".data, PyVal.int 1)]))) =
      ⟨500, errorBody 500⟩ :=
  ⟨rfl, malformed_history_500 tc0 oracle0 "hi".data _ _ rfl⟩

/-- C1 counterexample: `ts0` is exactly the transportable state the
service's own encode produced for `{"human_input": "hi"}`; one
decode/encode cycle on it (restoration followed by a snapshot, with no
new turn added) does not return the same state minus `metadata.writes` —
it crashes with `KeyError('writes')`, because the encode that produced
`ts0` had already stripped `writes` and `post_processing`
unconditionally deletes it again. -/
theorem roundtrip_writes_keyerror_cex :
    subscript (runRequest tc0 oracle0 (some payloadHi)).body historyKey = .ok ts0 ∧
    decodeEncode ts0 = .error (.keyError writesKey) := ⟨rfl, rfl⟩

/-- C1 amended: for every transportable state of the shape the service's
own encode produces (checkpoint channel values without a `messages`
entry, metadata without a `writes` entry), the decode step reconstructs
the turn list exactly — the store receives, under the constant thread id
"1", the original config, checkpoint (with the parity-rebuilt message
objects re-inserted), metadata and version token, and the rebuilt
messages flatten back to the original `prompt_list` — but the encode
half of the cycle then fails with `KeyError('writes')` instead of
returning a state, because `writes` was already stripped. -/
theorem roundtrip_writes_keyerror (cvEs mdEs : List (Str × PyVal)) (strs : List Str)
    (nv : PyVal)
    (hcv : lookupEntry cvEs messagesKey = Option.none)
    (hmd : lookupEntry mdEs writesKey = Option.none) :
    decodeEncode (serviceState cvEs strs mdEs nv) = .error (.keyError writesKey) ∧
    init_state_graph (some (serviceState cvEs strs mdEs nv)) =
      .ok [(PyVal.str "1".data,
        (graph_config,
         .dict [(channelValuesKey,
                 .dict (cvEs ++ [(messagesKey, .list ((mkParity 0 strs).map msgVal))]))],
         .dict mdEs, nv))] ∧
    (mkParity 0 strs).map Msg.content = strs := by
  have hset : setEntry cvEs messagesKey (.list ((mkParity 0 strs).map msgVal)) =
      cvEs ++ [(messagesKey, .list ((mkParity 0 strs).map msgVal))] :=
    setEntry_notMem _ _ _ hcv
  have hinit : init_state_graph (some (serviceState cvEs strs mdEs nv)) =
      .ok [(PyVal.str "1".data,
        (graph_config,
         .dict [(channelValuesKey,
                 .dict (cvEs ++ [(messagesKey, .list ((mkParity 0 strs).map msgVal))]))],
         .dict mdEs, nv))] := by
    simp +decide [init_state_graph, serviceState, PyVal.truthy, subscript, lookupEntry,
      pyIter, buildMessageObjects, buildFrom_strs, dictSet, setEntry, hset,
      storePutKeyed_gc, putAssoc, Bind.bind, Except.bind]
  refine ⟨?_, hinit, mkParity_content strs 0⟩
  have hmv := lookupEntry_append_self cvEs messagesKey
    (.list ((mkParity 0 strs).map msgVal)) hcv
  have hdel := delEntry_append_self cvEs messagesKey
    (.list ((mkParity 0 strs).map msgVal)) hcv
  have hmdel := delEntry_notMem mdEs writesKey hmd
  simp only [decodeEncode, Bind.bind]
  rw [hinit]
  simp +decide [Except.bind, snapshotHistory, storeGetKeyed_gc, lookupAssoc, keyEq_str_self,
    subscript, lookupEntry, hmv, pyIter, mapExcept_contentOf, dictDel, hdel, hmdel,
    dictSet, setEntry, Bind.bind]

/-- C1 witness: a two-turn service-produced state. -/
theorem roundtrip_writes_keyerror_witness :
    lookupEntry ([] : List (Str × PyVal)) messagesKey = Option.none ∧
    lookupEntry [(stepKey, PyVal.int 0)] writesKey = Option.none ∧
    decodeEncode
      (serviceState [] ["hi".data, "yo".data] [(stepKey, PyVal.int 0)] newVersionOf) =
      .error (.keyError writesKey) :=
  ⟨rfl, rfl,
   (roundtrip_writes_keyerror [] [(stepKey, PyVal.int 0)] ["hi".data, "yo".data]
     newVersionOf rfl rfl).1⟩

/-- C2 counterexample: the handler accepts a history whose `prompt_list`
is the odd-length ["a"]; the run then flattens the stored message
objects [Human "a", Human "b", Assistant "yo"], so the `prompt_list`
["a", "b", "yo"] produced by the encode step has a message at the odd
index 1 that was a Human turn — index parity does not determine roles
for every encoded `prompt_list`. -/
theorem parity_roles_cex :
    ((mainBody tc0 oracle0 (some payloadOdd)).toOption.bind (fun r => slotMessages r.2)) =
      some [Msg.mk .human "a".data, Msg.mk .human "b".data, Msg.mk .assistant "yo".data] ∧
    respPromptStrs (runRequest tc0 oracle0 (some payloadOdd)) =
      some ["a".data, "b".data, "yo".data] := ⟨by decide, by decide⟩

/-- C2 amended: the decode direction is unconditional — the comprehension
rebuilds the turn at index `i` of any input `prompt_list` of strings as a
`HumanMessage` when `i` is even and an `AIMessage` when `i` is odd; the
encode direction holds for histories that respect the alternation
invariant with even length (as every state produced purely by the
service's own cycle does): appending the new human turn and the
assistant reply preserves the parity invariant. -/
theorem parity_roles :
    (∀ strs : List Str,
      buildMessageObjects (strs.map PyVal.str) = .ok (mkParity 0 strs) ∧
      ∀ i, (mkParity 0 strs).get? i =
        (strs.get? i).map
          (fun s => Msg.mk (if i % 2 = 0 then Role.human else Role.assistant) s)) ∧
    (∀ (ms : List Msg) (x y : Str), ParityAlt ms → ms.length % 2 = 0 →
      ParityAlt (ms ++ [Msg.mk .human x, Msg.mk .assistant y])) := by
  constructor
  · intro strs
    refine ⟨buildFrom_strs strs 0, fun i => ?_⟩
    have := mkParity_get? strs 0 i
    simpa using this
  · intro ms x y hp he i hi
    have hlen : (ms ++ [Msg.mk .human x, Msg.mk .assistant y]).length = ms.length + 2 := by
      simp
    by_cases hlt : i < ms.length
    · have hget : (ms ++ [Msg.mk .human x, Msg.mk .assistant y]).get ⟨i, hi⟩ =
          ms.get ⟨i, hlt⟩ := by
        rw [List.get_eq_getElem, List.get_eq_getElem]
        exact List.getElem_append_left hlt
      rw [hget]
      exact hp i hlt
    · have hieq : i = ms.length ∨ i = ms.length + 1 := by
        rw [hlen] at hi
        omega
      rcases hieq with rfl | rfl
      · have hget : (ms ++ [Msg.mk .human x, Msg.mk .assistant y]).get ⟨ms.length, hi⟩ =
            Msg.mk .human x := by
          rw [List.get_eq_getElem]
          rw [List.getElem_append_right (Nat.le_refl _)]
          simp
        rw [hget]
        simp [he]
      · have hget : (ms ++ [Msg.mk .human x, Msg.mk .assistant y]).get
            ⟨ms.length + 1, hi⟩ = Msg.mk .assistant y := by
          rw [List.get_eq_getElem]
          rw [List.getElem_append_right (Nat.le_succ _)]
          simp
        rw [hget]
        have hodd : ¬ ((ms.length + 1) % 2 = 0) := by omega
        simp [hodd]

/-- C2 witness: a two-turn alternating history stays alternating after
one more exchange. -/
theorem parity_roles_witness :
    ParityAlt [Msg.mk .human "q".data, Msg.mk .assistant "r".data] ∧
    ParityAlt ([Msg.mk .human "q".data, Msg.mk .assistant "r".data] ++
      [Msg.mk .human "s".data, Msg.mk .assistant "t".data]) := by
  have hp : ParityAlt [Msg.mk .human "q".data, Msg.mk .assistant "r".data] := by
    intro i h
    have h2 : i < 2 := by simpa using h
    interval_cases i <;> simp [List.get]
  exact ⟨hp, parity_roles.2 _ "s".data "t".data hp (by decide)⟩

/-! ## Helpers for the remaining claims -/

theorem processRequests_append (tc : Msg → Nat) (oracle : List Msg → Except PyErr Str)
    (ps qs : List (Option PyVal)) :
    processRequests tc oracle (ps ++ qs) =
      processRequests tc oracle ps ++ processRequests tc oracle qs := by
  induction ps with
  | nil => simp [processRequests]
  | cons p rest ih => simp [processRequests, ih]

theorem post_processing_run (st : SnapStore) (prior : List Msg) (inp rep : Str) (n : Nat) :
    post_processing (prior ++ [Msg.mk .human inp, Msg.mk .assistant rep])
      (putAssoc st (PyVal.str "1".data)
        (graph_config,
         checkpointOf (prior ++ [Msg.mk .human inp, Msg.mk .assistant rep]),
         metadataOf rep n, newVersionOf)) graph_config =
      .ok (.dict [(responseKey,
                   .str (truncate_response (pretty_repr (Msg.mk .assistant rep)))),
                  (historyKey,
                   transportOf (prior ++ [Msg.mk .human inp, Msg.mk .assistant rep]) n)]) := by
  have hconc : prior ++ [Msg.mk .human inp, Msg.mk .assistant rep] =
      (prior ++ [Msg.mk .human inp]) ++ [Msg.mk .assistant rep] := by simp
  have hsnap := snapshot_after_put st
    (prior ++ [Msg.mk .human inp, Msg.mk .assistant rep]) rep n
  simp only [post_processing, hsnap, Bind.bind, Except.bind]
  rw [hconc, List.getLast?_concat]

theorem mainBody_payloadWith (tc : Msg → Nat) (oracle : List Msg → Except PyErr Str)
    (inp : Str) (hv : PyVal) (store : SnapStore)
    (hdec : init_state_graph (some hv) = .ok store) :
    mainBody tc oracle (some (payloadWith inp hv)) =
      (Except.mapError MainErr.exc (graphInvoke tc oracle store (.str inp))).bind
        (fun res =>
          (Except.mapError MainErr.exc (post_processing res.1 res.2 graph_config)).bind
            (fun out => Except.ok (out, res.2))) := by
  simp +decide [mainBody, payloadWith, PyVal.truthy, inOp, subscript, lookupEntry, hdec,
    Bind.bind, Except.bind, Except.mapError]

theorem mainBody_payloadBare (tc : Msg → Nat) (oracle : List Msg → Except PyErr Str)
    (inp : Str) :
    mainBody tc oracle (some (payloadBare inp)) =
      (Except.mapError MainErr.exc (graphInvoke tc oracle [] (.str inp))).bind
        (fun res =>
          (Except.mapError MainErr.exc (post_processing res.1 res.2 graph_config)).bind
            (fun out => Except.ok (out, res.2))) := by
  simp +decide [mainBody, payloadBare, PyVal.truthy, inOp, subscript, lookupEntry,
    init_state_graph, Bind.bind, Except.bind, Except.mapError]

/-- C7 counterexample: two failing requests whose HTTP statuses differ
from the statuses the spec's taxonomy assigns to their failure classes —
a malformed history yields 500 where the taxonomy says 400, and a remote
inference failure yields 500 where the taxonomy says 502. -/
theorem failure_no_history_cex :
    (runRequest tc0 oracle0 (some payloadNumHist)).status = 500 ∧
    specStatusOf .malformedHistory = 400 ∧
    (runRequest tc0 oracleDown (some payloadHi)).status = 500 ∧
    specStatusOf .remoteUnavailable = 502 := ⟨rfl, rfl, rfl, rfl⟩

/-- C7 amended: every failing request (whatever the failure) returns the
framework's error body, which carries no `history` field at all; every
successful request returns a fully updated history whose `prompt_list`
is the restored turns followed by the new human turn and the assistant
reply — never a half-updated state.  The statuses are those the code
produces (400 for the input abort, 500 for every uncaught error), not
the per-class statuses of the spec's taxonomy. -/
theorem failure_no_history (tc : Msg → Nat) (oracle : List Msg → Except PyErr Str)
    (payload : Option PyVal) :
    ((runRequest tc oracle payload).status ≠ 200 →
      (runRequest tc oracle payload).body =
        errorBody (runRequest tc oracle payload).status ∧
      subscript (runRequest tc oracle payload).body historyKey =
        .error (.keyError historyKey)) ∧
    (∀ r, mainBody tc oracle payload = .ok r →
      ∃ pre inp rep, historyPromptStrs r.1 = some (pre ++ [inp, rep])) := by
  constructor
  · intro hne
    cases hmb : mainBody tc oracle payload with
    | ok r =>
      exact absurd (show (runRequest tc oracle payload).status = 200 by
        simp [runRequest, hmb]) hne
    | error e =>
      cases e with
      | abortErr c =>
        refine ⟨by simp [runRequest, hmb], ?_⟩
        simp +decide [runRequest, hmb, errorBody, subscript, lookupEntry]
      | exc e2 =>
        refine ⟨by simp [runRequest, hmb], ?_⟩
        simp +decide [runRequest, hmb, errorBody, subscript, lookupEntry]
  · intro r hok
    obtain ⟨store, prior, inp, rep, h2, h1⟩ := mainBody_ok_shape tc oracle payload r hok
    refine ⟨prior.map Msg.content, inp, rep, ?_⟩
    rw [h1]
    simp +decide [historyPromptStrs, subscript, lookupEntry, transportOf]
    have hls : List.map (PyVal.str ∘ Msg.content) prior ++ [PyVal.str inp, PyVal.str rep] =
        (List.map Msg.content prior ++ [inp, rep]).map PyVal.str := by simp
    rw [hls, mapOption_str]

/-- C7 witness: the aborted empty request carries no history; the
successful request `{"human_input": "hi"}` carries a full exchange. -/
theorem failure_no_history_witness :
    ((runRequest tc0 oracle0 Option.none).body =
       errorBody (runRequest tc0 oracle0 Option.none).status ∧
     subscript (runRequest tc0 oracle0 Option.none).body historyKey =
       .error (.keyError historyKey)) ∧
    (∃ pre inp rep, historyPromptStrs mainOut0.1 = some (pre ++ [inp, rep])) :=
  ⟨(failure_no_history tc0 oracle0 Option.none).1 (by decide),
   (failure_no_history tc0 oracle0 (some payloadHi)).2 mainOut0 rfl⟩

/-- C8 counterexample: handled as the code is written (a fresh
`MemorySaver` per request), the second of two history-free requests
answers as though the first never happened; under the claim's
process-wide persistent slot it would instead see the first exchange.
The two second-response `prompt_list`s differ, so the slot's contents do
not persist between calls. -/
theorem per_request_store_cex :
    ((processRequests tc0 oracle0 [reqA, reqB]).map respPromptStrs) =
      [some ["a".data, "yo".data], some ["b".data, "yo".data]] ∧
    ((processShared tc0 oracle0 [] [reqA, reqB]).map respPromptStrs) =
      [some ["a".data, "yo".data],
       some ["a".data, "yo".data, "b".data, "yo".data]] ∧
    (some ["b".data, "yo".data] : Option (List Str)) ≠
      some ["a".data, "yo".data, "b".data, "yo".data] := ⟨by decide, by decide, by decide⟩

/-- C8 amended: each request builds its own fresh snapshot store, so the
response to the last request of any sequence is independent of all
earlier requests (nothing persists in the process between calls); within
one request, a successful run does write the request-local slot under
the constant session id "1". -/
theorem per_request_store :
    (∀ (tc : Msg → Nat) (oracle : List Msg → Except PyErr Str)
       (ps : List (Option PyVal)) (p : Option PyVal),
      (processRequests tc oracle (ps ++ [p])).getLast? =
        some (runRequest tc oracle p)) ∧
    (∀ (tc : Msg → Nat) (oracle : List Msg → Except PyErr Str)
       (payload : Option PyVal) (r : PyVal × SnapStore),
      mainBody tc oracle payload = .ok r →
      ∃ t, lookupAssoc r.2 (PyVal.str "1".data) = some t) := by
  constructor
  · intro tc oracle ps p
    rw [processRequests_append]
    simp [processRequests]
  · intro tc oracle payload r hok
    obtain ⟨store, prior, inp, rep, h2, h1⟩ := mainBody_ok_shape tc oracle payload r hok
    exact ⟨_, by rw [h2]; exact lookup_putAssoc store "1".data _⟩

/-- C8 witness: a two-request sequence and the slot write of one
successful request. -/
theorem per_request_store_witness :
    (processRequests tc0 oracle0 ([reqA] ++ [reqB])).getLast? =
      some (runRequest tc0 oracle0 reqB) ∧
    ∃ t, lookupAssoc mainOut0.2 (PyVal.str "1".data) = some t :=
  ⟨per_request_store.1 tc0 oracle0 [reqA] reqB,
   per_request_store.2 tc0 oracle0 (some payloadHi) mainOut0 rfl⟩

/-- C9: restoration takes effect only when the client history's config
carries thread id "1".  The decode step stores the restored checkpoint
under the key taken from `history['config']`; inference and the final
snapshot always read the module-level `graph_config` with thread id "1".
For any other thread id the restored turns are silently invisible — the
request behaves exactly as if no history had been sent — while under
thread id "1" the response's `prompt_list` is the restored turns
followed by the new exchange. -/
theorem thread_routing (tc : Msg → Nat) (oracle : List Msg → Except PyErr Str)
    (inp : Str) (tid : PyVal) (strs : List Str)
    (hhash : hashablePy tid = true) :
    init_state_graph (some (clientHistory tid strs)) =
      .ok [(tid,
        (.dict [(configurableKey, .dict [(threadIdKey, tid)])],
         .dict [(channelValuesKey,
                 .dict [(messagesKey, .list ((mkParity 0 strs).map msgVal))])],
         .dict [(stepKey, .int 0)], newVersionOf))] ∧
    (keyEq (PyVal.str "1".data) tid = false →
      runRequest tc oracle (some (payloadWith inp (clientHistory tid strs))) =
        runRequest tc oracle (some (payloadBare inp))) ∧
    (tid = PyVal.str "1".data →
      ∀ r0, (∀ pm, oracle pm = .ok r0) →
      respPromptStrs
        (runRequest tc oracle (some (payloadWith inp (clientHistory tid strs)))) =
        some (strs ++ [inp, r0])) := by
  have hinit : init_state_graph (some (clientHistory tid strs)) =
      .ok [(tid,
        (.dict [(configurableKey, .dict [(threadIdKey, tid)])],
         .dict [(channelValuesKey,
                 .dict [(messagesKey, .list ((mkParity 0 strs).map msgVal))])],
         .dict [(stepKey, .int 0)], newVersionOf))] := by
    simp +decide [init_state_graph, clientHistory, PyVal.truthy, subscript, lookupEntry,
      pyIter, buildMessageObjects, buildFrom_strs, dictSet, setEntry,
      storePutKeyed, threadIdOf, hhash, putAssoc, Bind.bind, Except.bind]
  refine ⟨hinit, ?_, ?_⟩
  · intro hne
    have hlk : lookupAssoc
        [(tid,
          (PyVal.dict [(configurableKey, PyVal.dict [(threadIdKey, tid)])],
           PyVal.dict [(channelValuesKey,
             PyVal.dict [(messagesKey, PyVal.list ((mkParity 0 strs).map msgVal))])],
           PyVal.dict [(stepKey, PyVal.int 0)], newVersionOf))]
        (PyVal.str "1".data) = Option.none := by
      simp [lookupAssoc, hne]
    have hmw := mainBody_payloadWith tc oracle inp (clientHistory tid strs) _ hinit
    have hmb := mainBody_payloadBare tc oracle inp
    rw [invoke_no_slot tc oracle _ inp hlk] at hmw
    rw [invoke_no_slot tc oracle [] inp rfl] at hmb
    cases horacle : oracle (pre_processing tc [Msg.mk .human inp]) with
    | error e =>
      rw [horacle] at hmw hmb
      simp only [Except.bind, Except.mapError, Bind.bind] at hmw hmb
      simp [runRequest, hmw, hmb]
    | ok r =>
      rw [horacle] at hmw hmb
      have hpW := post_processing_run
        [(tid,
          (PyVal.dict [(configurableKey, PyVal.dict [(threadIdKey, tid)])],
           PyVal.dict [(channelValuesKey,
             PyVal.dict [(messagesKey, PyVal.list ((mkParity 0 strs).map msgVal))])],
           PyVal.dict [(stepKey, PyVal.int 0)], newVersionOf))]
        [] inp r 0
      have hpB := post_processing_run [] [] inp r 0
      simp only [List.nil_append] at hpW hpB
      simp only [Except.bind, Except.mapError, Bind.bind, hpW, hpB] at hmw hmb
      simp [runRequest, hmw, hmb]
  · rintro rfl r0 hor
    have hlk : lookupAssoc
        [(PyVal.str "1".data,
          (PyVal.dict [(configurableKey,
             PyVal.dict [(threadIdKey, PyVal.str "1".data)])],
           PyVal.dict [(channelValuesKey,
             PyVal.dict [(messagesKey, PyVal.list ((mkParity 0 strs).map msgVal))])],
           PyVal.dict [(stepKey, PyVal.int 0)], newVersionOf))]
        (PyVal.str "1".data) =
        some (PyVal.dict [(configurableKey,
                PyVal.dict [(threadIdKey, PyVal.str "1".data)])],
              PyVal.dict [(channelValuesKey,
                PyVal.dict [(messagesKey, PyVal.list ((mkParity 0 strs).map msgVal))])],
              PyVal.dict [(stepKey, PyVal.int 0)], newVersionOf) := by
      simp [lookupAssoc, keyEq_str_self]
    have hmw := mainBody_payloadWith tc oracle inp
      (clientHistory (PyVal.str "1".data) strs) _ hinit
    rw [invoke_with_slot tc oracle _ _
        (PyVal.dict [(messagesKey, PyVal.list ((mkParity 0 strs).map msgVal))])
        (mkParity 0 strs) inp hlk (by simp [subscript, lookupEntry])
        (by simp [subscript, lookupEntry])] at hmw
    rw [hor (pre_processing tc (mkParity 0 strs ++ [Msg.mk .human inp]))] at hmw
    have hp := post_processing_run
      [(PyVal.str "1".data,
        (PyVal.dict [(configurableKey,
           PyVal.dict [(threadIdKey, PyVal.str "1".data)])],
         PyVal.dict [(channelValuesKey,
           PyVal.dict [(messagesKey, PyVal.list ((mkParity 0 strs).map msgVal))])],
         PyVal.dict [(stepKey, PyVal.int 0)], newVersionOf))]
      (mkParity 0 strs) inp r0 (mkParity 0 strs).length
    simp only [Except.bind, Except.mapError, Bind.bind, hp] at hmw
    simp +decide [runRequest, hmw, respPromptStrs, historyPromptStrs, subscript,
      lookupEntry, transportOf]
    have hmc : List.map (PyVal.str ∘ Msg.content) (mkParity 0 strs) =
        strs.map PyVal.str := by
      rw [← List.map_map, mkParity_content]
    have hls : List.map (PyVal.str ∘ Msg.content) (mkParity 0 strs) ++
        [PyVal.str inp, PyVal.str r0] = (strs ++ [inp, r0]).map PyVal.str := by
      rw [hmc]
      simp
    rw [hls, mapOption_str]

/-- C9 witness: a history carrying thread id "2" is stored under "2" and
answered as if no history were sent; the same history under thread id
"1" is resumed and extended. -/
theorem thread_routing_witness :
    hashablePy (PyVal.str "2".data) = true ∧
    keyEq (PyVal.str "1".data) (PyVal.str "2".data) = false ∧
    runRequest tc0 oracle0
      (some (payloadWith "b".data
        (clientHistory (PyVal.str "2".data) ["a".data, "r".data]))) =
      runRequest tc0 oracle0 (some (payloadBare "b".data)) ∧
    respPromptStrs (runRequest tc0 oracle0
      (some (payloadWith "b".data
        (clientHistory (PyVal.str "1".data) ["a".data, "r".data])))) =
      some (["a".data, "r".data] ++ ["b".data, "yo".data]) :=
  ⟨rfl, by decide,
   (thread_routing tc0 oracle0 "b".data (PyVal.str "2".data)
     ["a".data, "r".data] rfl).2.1 (by decide),
   by
     have h := (thread_routing tc0 oracle0 "b".data (PyVal.str "1".data)
       ["a".data, "r".data] rfl).2.2 rfl "yo".data (fun pm => rfl)
     simpa using h⟩

end GroqChat
